import Mathlib

/-
Verification of the youtill constraint-checking core (src/youtill/parameters.py,
src/youtill/util.py) against its natural-language specification.

The embedding translates the Python source into Lean:
  * Python values are `PyVal` (None, bool, int, float, str); floats are modelled
    as exact rationals, faithful on every float appearing in the claims since all
    of those are exactly representable in binary floating point.
  * Constraint specs are `Constraint` (None, type tag, string, predicate,
    collection), mirroring the dynamic dispatch of `_check_constraint`.
  * Exceptions are modelled with `Except String` for pure evaluators and with a
    `state × Option String` pair for the mutating `ParameterRegister` methods:
    the returned state is the object state at the moment the exception leaves
    the method, which is how the atomicity claims become checkable.
  * Python `str.split` is modelled by a fuel-based scanner `splitGo`; the fuel
    `length + 1` always suffices, so the model is total and executable.
-/

set_option maxRecDepth 8000

namespace Youtill

/-- Runtime values flowing through the constraint checker: the Python value
kinds the library manipulates.  Floats are exact rationals in the model. -/
inductive PyVal where
  | none
  | bool (b : Bool)
  | int (n : Int)
  | float (q : Rat)
  | str (s : String)
deriving DecidableEq, Repr

/-- The runtime type tags a constraint map can hold: plain Python classes plus
the special `collections.Iterable` tag used by the source. -/
inductive PyType where
  | noneT
  | boolT
  | intT
  | floatT
  | strT
  | iterableT
deriving DecidableEq, Repr

/-- Python `isinstance(v, T)` on the modelled values and type tags.  `bool` is a
subclass of `int` in Python; of the modelled values only strings are instances
of `collections.Iterable`. -/
def isinstance : PyVal → PyType → Bool
  | PyVal.none, PyType.noneT => true
  | PyVal.bool _, PyType.boolT => true
  | PyVal.bool _, PyType.intT => true
  | PyVal.int _, PyType.intT => true
  | PyVal.float _, PyType.floatT => true
  | PyVal.str _, PyType.strT => true
  | PyVal.str _, PyType.iterableT => true
  | _, _ => false

/-- Constraint specifications: the ConstraintSpec mini-language of the library.
`pred` carries an arbitrary boolean-valued predicate (a Python callable);
`coll` is a tuple/list of sub-specs. -/
inductive Constraint where
  | none
  | ty (t : PyType)
  | str (s : String)
  | pred (f : PyVal → Bool)
  | coll (cs : List Constraint)

/-- Python truthiness of the modelled values (`if not no_check: ...`). -/
def truthy : PyVal → Bool
  | PyVal.none => false
  | PyVal.bool b => b
  | PyVal.int n => n != 0
  | PyVal.float q => q != 0
  | PyVal.str s => !s.isEmpty

/-- Numeric view of a value for Python `==`: bool, int and float compare by
numeric value across kinds (True == 1, 1 == 1.0 in Python). -/
def numView : PyVal → Option Rat
  | PyVal.bool b => Option.some (if b then 1 else 0)
  | PyVal.int n => Option.some (n : Rat)
  | PyVal.float q => Option.some q
  | _ => Option.none

/-- Python `==` on the modelled values. -/
def pyEq (a b : PyVal) : Bool :=
  match numView a, numView b with
  | Option.some x, Option.some y => x == y
  | _, _ =>
    match a, b with
    | PyVal.str s, PyVal.str t => s == t
    | PyVal.none, PyVal.none => true
    | _, _ => false

/-- Boolean prefix test on character lists (Python `str.startswith`). -/
def isPrefixL : List Char → List Char → Bool
  | [], _ => true
  | _ :: _, [] => false
  | a :: as, b :: bs => a == b && isPrefixL as bs

/-- Python `c.startswith(pre)`. -/
def pyStartswith (c pre : String) : Bool :=
  isPrefixL pre.data c.data

/-- Scanner behind Python `str.split(sep)`: walks the character list, closing
the current piece at every non-overlapping occurrence of `sep`.  Fuel-based so
the definition is structural and executable; fuel `length + 1` suffices because
every step either consumes at least one character or terminates. -/
def splitGo (sep : List Char) : Nat → List Char → List Char → List (List Char)
  | 0, cur, _ => [cur]
  | fuel + 1, cur, s =>
    if isPrefixL sep s && !sep.isEmpty then
      cur :: splitGo sep fuel [] (s.drop sep.length)
    else
      match s with
      | [] => [cur]
      | a :: s2 => splitGo sep fuel (cur ++ [a]) s2

/-- Python `c.split(sep)` (pieces as character lists; `sep` nonempty in every
use, matching the source where the separators are the six operator strings). -/
def pySplit (c sep : String) : List (List Char) :=
  splitGo sep.data (c.data.length + 1) [] c.data

/-- Value of a list of decimal digit characters. -/
def digitsToNat (ds : List Char) : Nat :=
  ds.foldl (fun a c => 10 * a + (c.toNat - 48)) 0

/-- Digits-and-optional-point part of Python `float(str)`:
`[digits][.digits]` with at least one digit overall.  (Exponents, inf/nan and
surrounding whitespace are Python-accepted forms never exercised by this
library's inputs and are not modelled.) -/
def parseUnsigned (s : List Char) : Option Rat :=
  let intPart := s.takeWhile (fun c => c.isDigit)
  let rest := s.dropWhile (fun c => c.isDigit)
  match rest with
  | [] =>
    if intPart.isEmpty then Option.none
    else Option.some (digitsToNat intPart : Rat)
  | '.' :: frac =>
    if frac.all (fun c => c.isDigit) && !(intPart.isEmpty && frac.isEmpty) then
      Option.some ((digitsToNat intPart : Rat) +
        (digitsToNat frac : Rat) / ((10 : Rat) ^ frac.length))
    else Option.none
  | _ => Option.none

/-- Python `float(str)`: optional sign then digits with optional point. -/
def parseFloat (s : List Char) : Option Rat :=
  match s with
  | '-' :: rest => (parseUnsigned rest).map (fun q => -q)
  | '+' :: rest => parseUnsigned rest
  | _ => parseUnsigned s

/-- Python `float(item)` on a value: succeeds on bool/int/float and on numeric
strings; `None` raises TypeError and non-numeric strings raise ValueError, both
of which the source catches, so failure is `Option.none` here. -/
def tofloat : PyVal → Option Rat
  | PyVal.bool b => Option.some (if b then 1 else 0)
  | PyVal.int n => Option.some (n : Rat)
  | PyVal.float q => Option.some q
  | PyVal.str s => parseFloat s.data
  | PyVal.none => Option.none

/-- The ordered `operations` table of util.py: operator string to comparison,
in source order `<=`, `>=`, `==`, `!=`, `>`, `<`. -/
def operations : List (String × (Rat → Rat → Bool)) :=
  [("<=", fun x y => decide (x ≤ y)),
   (">=", fun x y => decide (y ≤ x)),
   ("==", fun x y => x == y),
   ("!=", fun x y => x != y),
   (">", fun x y => decide (y < x)),
   ("<", fun x y => decide (x < y))]

/-- The keys of `operations`, in order. -/
def opsKeys : List String :=
  ["<=", ">=", "==", "!=", ">", "<"]

/-- `_isop(c, opstr)` of parameters.py:
`c.startswith(opstr) and not c.split(opstr)[1].startswith('=')`.
The index `[1]` is reached only under the short-circuiting `and`, where
`opstr` occurs in `c`, so the split has at least two pieces; `getD` with
default `[]` therefore models the indexing exactly. -/
def _isop (c opstr : String) : Bool :=
  pyStartswith c opstr && !(isPrefixL ['='] ((pySplit c opstr).getD 1 []))

/-- `_getval(c, opstr)` of parameters.py: `float(c.split(opstr)[1])`.
`Option.none` models the ValueError that `float` raises on a non-numeric
piece — an exception the source does not catch at this point. -/
def _getval (c opstr : String) : Option Rat :=
  parseFloat ((pySplit c opstr).getD 1 [])

/-- Strict left-to-right collection of the results of a Python list
comprehension whose items may raise: the first exception wins, otherwise all
boolean results are returned. -/
def collectE : List (Except String Bool) → Except String (List Bool)
  | [] => Except.ok []
  | Except.error e :: _ => Except.error e
  | Except.ok b :: rest =>
    match collectE rest with
    | Except.error e => Except.error e
    | Except.ok bs => Except.ok (b :: bs)

/-- `_check_constraint(item, c)` of parameters.py, with exceptions explicit.
Branches in source order: None; type tag (including `collections.Iterable`);
string (numeric-operator string or literal); otherwise call the constraint
(`c(item)`) — which for a collection raises TypeError (tuples are not
callable) and for a predicate returns its boolean. -/
def _check_constraint (item : PyVal) (c : Constraint) : Except String Bool :=
  match c with
  | Constraint.none => Except.ok true
  | Constraint.ty t => Except.ok (isinstance item t)
  | Constraint.str s =>
    let numeric := opsKeys.any (fun opstr => pyStartswith s opstr)
    if numeric then
      match tofloat item with
      | Option.none => Except.ok false
      | Option.some x =>
        match collectE (operations.map (fun p =>
          if _isop s p.1 then
            match _getval s p.1 with
            | Option.some rhs => Except.ok (p.2 x rhs)
            | Option.none => Except.error "ValueError: could not convert string to float"
          else Except.ok true)) with
        | Except.error e => Except.error e
        | Except.ok bs => Except.ok (bs.all (fun b => b))
    else
      Except.ok (pyEq item (PyVal.str s))
  | Constraint.pred f => Except.ok (f item)
  | Constraint.coll _ => Except.error "TypeError: tuple object is not callable"

/-- `isiterable` of util.py: `isinstance(item, collections.Iterable)` on a
constraint value.  Python strings are iterable, so string specs satisfy this —
the fact behind several divergences from the spec. -/
def isiterable : Constraint → Bool
  | Constraint.str _ => true
  | Constraint.coll _ => true
  | _ => false

/-- The members produced by iterating a constraint in a Python `for` loop:
a collection yields its elements; a string yields its characters as
one-character strings. -/
def iterMembers : Constraint → List Constraint
  | Constraint.coll cs => cs
  | Constraint.str s => s.data.map (fun ch => Constraint.str (String.mk [ch]))
  | c => [c]

/-- `check_constraints(param_value, param_name, constraints, check_all)` of
parameters.py.  The constraint map is an association list; `constraints.get`
yields None for a missing key.  Both of Python's `all([...])`/`any([...])`
first build the whole comprehension list, so the first member exception
propagates regardless of earlier results. -/
def check_constraints (param_value : PyVal) (param_name : String)
    (constraints : List (String × Constraint)) (check_all : Bool := true) :
    Except String Bool :=
  let constraint := (constraints.lookup param_name).getD Constraint.none
  if isiterable constraint then
    match collectE ((iterMembers constraint).map (fun c => _check_constraint param_value c)) with
    | Except.error e => Except.error e
    | Except.ok bs => Except.ok (if check_all then bs.all (fun b => b) else bs.any (fun b => b))
  else
    _check_constraint param_value constraint

/-- Decimal digits of a rational in `[0,1)`; fuel-truncated (every float the
library can print has a finite decimal expansion well below the fuel). -/
def fracDigits : Nat → Rat → List Char
  | 0, _ => []
  | fuel + 1, x =>
    if x == 0 then []
    else
      let d : Int := (x * 10).floor
      Char.ofNat (48 + d.toNat) :: fracDigits fuel (x * 10 - (d : Rat))

/-- Python `str()` of a float: sign, integer part, point, fraction digits,
with `.0` for integral floats. -/
def floatStr (q : Rat) : String :=
  let sign := if q < 0 then "-" else ""
  let a := |q|
  let ip : Nat := a.floor.toNat
  let ds := fracDigits 400 (a - (ip : Rat))
  sign ++ toString ip ++ "." ++ (if ds.isEmpty then "0" else String.mk ds)

/-- Python `str()` of a value, as used by `'{}'.format(...)` in the source. -/
def pyStr : PyVal → String
  | PyVal.none => "None"
  | PyVal.bool b => if b then "True" else "False"
  | PyVal.int n => toString n
  | PyVal.float q => floatStr q
  | PyVal.str s => s

/-- Python `str.join`: `sep.join(l)`. -/
def pyJoin (sep : String) : List String → String
  | [] => ""
  | [a] => a
  | a :: b :: t => a ++ sep ++ pyJoin sep (b :: t)

/-- The `__name__`-style rendering of a modelled type tag. -/
def typeName : PyType → String
  | PyType.noneT => "NoneType"
  | PyType.boolT => "bool"
  | PyType.intT => "int"
  | PyType.floatT => "float"
  | PyType.strT => "str"
  | PyType.iterableT => "collections.abc.Iterable"

mutual

/-- Python `repr()` of a constraint value (strings quoted, types as
`<class ...>`, tuples parenthesised; the address suffix Python prints for
lambdas, and the trailing comma of 1-tuples, are not exercised by any claim
and are omitted). -/
def pyReprConstraint : Constraint → String
  | Constraint.none => "None"
  | Constraint.ty t => "<class \x27" ++ typeName t ++ "\x27>"
  | Constraint.str s => "\x27" ++ s ++ "\x27"
  | Constraint.pred _ => "<function <lambda>>"
  | Constraint.coll cs => "(" ++ pyJoin ", " (pyReprList cs) ++ ")"

/-- `repr()` of each member of a constraint tuple. -/
def pyReprList : List Constraint → List String
  | [] => []
  | c :: cs => pyReprConstraint c :: pyReprList cs

end

/-- Python `str()` of a constraint value (differs from `repr` only on
strings, which print unquoted). -/
def pyStrConstraint : Constraint → String
  | Constraint.str s => s
  | c => pyReprConstraint c

/-- Python `d.get(k)` on a dict modelled as an ordered association list. -/
def pyDictGet {α : Type} (d : List (String × α)) (k : String) : Option α :=
  d.lookup k

/-- Python `d[k] = v` on an ordered dict: updates the value in place if the
key is present (keeping its position), otherwise appends. -/
def pyDictSet {α : Type} (d : List (String × α)) (k : String) (v : α) :
    List (String × α) :=
  if d.any (fun p => p.1 == k) then
    d.map (fun p => if p.1 == k then (p.1, v) else p)
  else d ++ [(k, v)]

/-- A sequence of `d[k] = v` assignments, left to right (the assignment loop
of `set` and the semantics of `dict.update`). -/
def setAll {α : Type} (d : List (String × α)) (kvs : List (String × α)) :
    List (String × α) :=
  kvs.foldl (fun acc p => pyDictSet acc p.1 p.2) d

/-- `ParameterRegister` of parameters.py: an OrderedDict of current values
(`values`) plus the `constraints` and `defaults` attributes, each of which is
whatever was passed to `__init__` — possibly None. -/
structure ParameterRegister where
  values : List (String × PyVal)
  constraints : Option (List (String × Constraint))
  defaults : Option (List (String × PyVal))

/-- `ParameterRegister(constraints, defaults)`: starts with an empty value
mapping; both attributes default to None. -/
def ParameterRegister.init
    (constraints : Option (List (String × Constraint)) := Option.none)
    (defaults : Option (List (String × PyVal)) := Option.none) :
    ParameterRegister :=
  ⟨[], constraints, defaults⟩

/-- `register(kwarg_name, constraints, default)`.  The source assigns into
`self.constraints` first and `self.defaults` second; indexing into a None
attribute raises TypeError at that point, so with a dict `constraints` but
None `defaults` the constraint entry is written before the exception —
the returned state reflects that partial mutation. -/
def ParameterRegister.register (r : ParameterRegister) (kwarg_name : String)
    (constraints : Constraint := Constraint.none)
    (default : PyVal := PyVal.none) :
    ParameterRegister × Option String :=
  match r.constraints with
  | Option.none =>
    (r, Option.some "TypeError: NoneType object does not support item assignment")
  | Option.some cs =>
    let cs2 := pyDictSet cs kwarg_name constraints
    match r.defaults with
    | Option.none =>
      ({ r with constraints := Option.some cs2 },
        Option.some "TypeError: NoneType object does not support item assignment")
    | Option.some ds =>
      ({ r with
          constraints := Option.some cs2
          defaults := Option.some (pyDictSet ds kwarg_name default) },
       Option.none)

/-- Strict left-to-right evaluation of the `check_kwargs` dict comprehension:
the first exception wins, otherwise every name is paired with its boolean. -/
def collectPairs : List (String × Except String Bool) →
    Except String (List (String × Bool))
  | [] => Except.ok []
  | (_, Except.error e) :: _ => Except.error e
  | (k, Except.ok b) :: rest =>
    match collectPairs rest with
    | Except.error e => Except.error e
    | Except.ok bs => Except.ok ((k, b) :: bs)

/-- `check_kwargs(**kwargs)`: checks every supplied pair against
`self.constraints`.  When `self.constraints` is None the first check raises
AttributeError (None has no `.get`); with no kwargs nothing is evaluated. -/
def ParameterRegister.check_kwargs (r : ParameterRegister)
    (kwargs : List (String × PyVal)) : Except String (List (String × Bool)) :=
  collectPairs (kwargs.map (fun p => (p.1,
    match r.constraints with
    | Option.none => Except.error "AttributeError: NoneType object has no attribute get"
    | Option.some cs => check_constraints p.2 p.1 cs)))

/-- `_err_fmt(key, kwarg_dict)`: one failing parameter's message.  The source
indexes `self.constraints[key]` and `kwarg_dict[key]`; it is called only for
keys that just failed validation, which are therefore present in both maps,
so the `getD` defaults are never the reached case. -/
def ParameterRegister._err_fmt (r : ParameterRegister) (key : String)
    (kwarg_dict : List (String × PyVal)) : String :=
  key ++ " expects " ++
    pyStrConstraint ((pyDictGet (r.constraints.getD []) key).getD Constraint.none) ++
    " but got " ++ pyStr ((pyDictGet kwarg_dict key).getD PyVal.none)

/-- `set(**kwargs)`.  A truthy `no_check` skips validation entirely; otherwise
every kwarg is validated first and a ValueError carrying the joined messages
of all failing parameters is raised before any assignment.  The assignment
loop (`self[k] = v` for every pair) runs only when no exception was raised,
so the returned state on the error path is the unmodified register. -/
def ParameterRegister.set (r : ParameterRegister)
    (kwargs : List (String × PyVal)) : ParameterRegister × Option String :=
  let no_check := (pyDictGet kwargs "no_check").getD PyVal.none
  if truthy no_check then
    ({ r with values := setAll r.values kwargs }, Option.none)
  else
    match r.check_kwargs kwargs with
    | Except.error e => (r, Option.some e)
    | Except.ok is_good =>
      if is_good.all (fun p => p.2) then
        ({ r with values := setAll r.values kwargs }, Option.none)
      else
        (r, Option.some (pyJoin ", "
          ((is_good.filter (fun p => !p.2)).map (fun p => r._err_fmt p.1 kwargs))))

/-- `self.get(key) is None`: holds both for an absent key and for a key
stored as None. -/
def isUnset (values : List (String × PyVal)) (k : String) : Bool :=
  match pyDictGet values k with
  | Option.some PyVal.none => true
  | Option.none => true
  | _ => false

/-- The `defaults_notset` comprehension: the entries of the default mapping
whose key currently reads as None from the register. -/
def notSetFilter (values : List (String × PyVal))
    (ds : List (String × PyVal)) : List (String × PyVal) :=
  ds.filter (fun p => isUnset values p.1)

/-- `set_uninitialized_params(defaults)`.  The source computes
`defaults_notset` from the explicit argument, else from `self.defaults`; when
both are None it prints a message — but the final `self.update(**defaults_notset)`
statement sits outside the if/elif/else, so that branch then raises
UnboundLocalError on the never-assigned `defaults_notset`. -/
def ParameterRegister.set_uninitialized_params (r : ParameterRegister)
    (defaults : Option (List (String × PyVal)) := Option.none) :
    ParameterRegister × Option String :=
  match defaults with
  | Option.some ds =>
    ({ r with values := setAll r.values (notSetFilter r.values ds) }, Option.none)
  | Option.none =>
    match r.defaults with
    | Option.some ds =>
      ({ r with values := setAll r.values (notSetFilter r.values ds) }, Option.none)
    | Option.none =>
      (r, Option.some "UnboundLocalError: local variable defaults_notset referenced before assignment")

/-- The `hashable_str` property: comma-joined `name:str(value)` pairs in
insertion order. -/
def ParameterRegister.hashable_str (r : ParameterRegister) : String :=
  pyJoin "," (r.values.map (fun p => p.1 ++ ":" ++ pyStr p.2))

/-- Modelled from the spec: the operator-matching rule as the specification
words it — the symbol is a prefix of the constraint string and the remainder
of the string after stripping the symbol does not itself begin with an equals
sign.  Stated from the spec sentence for comparison against the source's
`_isop`. -/
def specIsop (c opstr : String) : Bool :=
  pyStartswith c opstr && !(isPrefixL ['='] (c.data.drop opstr.data.length))

/-! ### General lemmas about the dictionary model -/

theorem lookup_cons_self {α : Type} (k : String) (v : α) (t : List (String × α)) :
    List.lookup k ((k, v) :: t) = Option.some v := by
  simp [List.lookup_cons]

theorem lookup_cons_ne {α : Type} (k a : String) (v : α) (t : List (String × α))
    (h : k ≠ a) : List.lookup k ((a, v) :: t) = List.lookup k t := by
  simp [List.lookup_cons, beq_eq_false_iff_ne.mpr h]

theorem lookup_map_update_self {α : Type} (k : String) (v : α) :
    ∀ (d : List (String × α)), d.any (fun p => p.1 == k) = true →
      List.lookup k (d.map (fun p => if p.1 == k then (p.1, v) else p)) = Option.some v
  | [], h => by simp at h
  | ⟨a1, a2⟩ :: t, h => by
    rw [List.map_cons]
    by_cases hak : a1 = k
    · subst hak
      simp [lookup_cons_self a1 v (t.map (fun p => if p.1 == a1 then (p.1, v) else p))]
    · have ht : t.any (fun p => p.1 == k) = true := by
        simpa [List.any_cons, hak] using h
      have hrec := lookup_map_update_self k v t ht
      simpa [hak, lookup_cons_ne k a1 a2 _ (Ne.symm hak)] using hrec

theorem lookup_append_single {α : Type} (k : String) (v : α) :
    ∀ (d : List (String × α)), d.any (fun p => p.1 == k) = false →
      List.lookup k (d ++ [(k, v)]) = Option.some v
  | [], _ => lookup_cons_self k v []
  | ⟨a1, a2⟩ :: t, h => by
    rw [List.any_cons] at h
    rcases Bool.or_eq_false_iff.mp h with ⟨h1, h2⟩
    rw [List.cons_append, lookup_cons_ne k a1 a2 _ (Ne.symm (beq_eq_false_iff_ne.mp h1))]
    exact lookup_append_single k v t h2

theorem pyDictGet_pyDictSet_self {α : Type} (d : List (String × α)) (k : String) (v : α) :
    pyDictGet (pyDictSet d k v) k = Option.some v := by
  unfold pyDictGet pyDictSet
  by_cases h : d.any (fun p => p.1 == k) = true
  · rw [if_pos h]
    exact lookup_map_update_self k v d h
  · rw [if_neg h]
    exact lookup_append_single k v d (Bool.eq_false_iff.mpr h)

theorem lookup_map_update_other {α : Type} (k k' : String) (v : α) (hne : k' ≠ k) :
    ∀ (d : List (String × α)),
      List.lookup k' (d.map (fun p => if p.1 == k then (p.1, v) else p)) =
        List.lookup k' d
  | [] => rfl
  | ⟨a1, a2⟩ :: t => by
    rw [List.map_cons]
    by_cases hak : a1 = k
    · subst hak
      have h1 : k' ≠ a1 := hne
      simpa [lookup_cons_ne k' a1 v _ h1, lookup_cons_ne k' a1 a2 t h1] using
        lookup_map_update_other a1 k' v hne t
    · by_cases hk' : k' = a1
      · subst hk'
        simp [hak, lookup_cons_self]
      · simpa [hak, lookup_cons_ne k' a1 a2 _ hk'] using
          lookup_map_update_other k k' v hne t

theorem lookup_append_single_other {α : Type} (k k' : String) (v : α) (hne : k' ≠ k) :
    ∀ (d : List (String × α)),
      List.lookup k' (d ++ [(k, v)]) = List.lookup k' d
  | [] => by simp [lookup_cons_ne k' k v [] hne]
  | ⟨a1, a2⟩ :: t => by
    rw [List.cons_append]
    by_cases hk' : k' = a1
    · subst hk'
      simp [lookup_cons_self]
    · simpa [lookup_cons_ne k' a1 a2 _ hk'] using
        lookup_append_single_other k k' v hne t

theorem pyDictGet_pyDictSet_other {α : Type} (d : List (String × α)) (k k' : String)
    (v : α) (hne : k' ≠ k) :
    pyDictGet (pyDictSet d k v) k' = pyDictGet d k' := by
  unfold pyDictGet pyDictSet
  by_cases h : d.any (fun p => p.1 == k) = true
  · rw [if_pos h]
    exact lookup_map_update_other k k' v hne d
  · rw [if_neg h]
    exact lookup_append_single_other k k' v hne d

theorem setAll_lookup_none {α : Type} (k : String) :
    ∀ (kvs d : List (String × α)), pyDictGet kvs k = Option.none →
      pyDictGet (setAll d kvs) k = pyDictGet d k
  | [], d, _ => rfl
  | ⟨a1, a2⟩ :: t, d, h => by
    have hka : (k == a1) = false := by
      by_cases hc : (k == a1) = true
      · rw [show pyDictGet (⟨a1, a2⟩ :: t) k = Option.some a2 from by
          simp [pyDictGet, List.lookup_cons, hc]] at h
        exact absurd h (by simp)
      · exact Bool.eq_false_iff.mpr hc
    have ht : pyDictGet t k = Option.none := by
      simpa [pyDictGet, List.lookup_cons, hka] using h
    have step : setAll d (⟨a1, a2⟩ :: t) = setAll (pyDictSet d a1 a2) t := rfl
    rw [step, setAll_lookup_none k t (pyDictSet d a1 a2) ht,
      pyDictGet_pyDictSet_other d a1 k a2 (beq_eq_false_iff_ne.mp hka)]

theorem lookup_some_key_mem {α : Type} (k : String) (v : α) :
    ∀ (d : List (String × α)), pyDictGet d k = Option.some v → k ∈ d.map Prod.fst
  | [], h => by simp [pyDictGet] at h
  | ⟨a1, a2⟩ :: t, h => by
    by_cases hka : (k == a1) = true
    · simp [eq_of_beq hka]
    · have hmem := lookup_some_key_mem k v t
        (by simpa [pyDictGet, List.lookup_cons, Bool.eq_false_iff.mpr hka] using h)
      simp [hmem]

theorem lookup_some_mem {α : Type} (k : String) (v : α) :
    ∀ (d : List (String × α)), pyDictGet d k = Option.some v → (k, v) ∈ d
  | [], h => by simp [pyDictGet] at h
  | ⟨a1, a2⟩ :: t, h => by
    by_cases hka : (k == a1) = true
    · have h2 : a2 = v := by
        simpa [pyDictGet, List.lookup_cons, hka] using h
      simp [eq_of_beq hka, h2]
    · have hmem := lookup_some_mem k v t
        (by simpa [pyDictGet, List.lookup_cons, Bool.eq_false_iff.mpr hka] using h)
      simp [hmem]

theorem setAll_lookup_some {α : Type} (k : String) (v : α) :
    ∀ (kvs d : List (String × α)), (kvs.map Prod.fst).Nodup →
      pyDictGet kvs k = Option.some v →
      pyDictGet (setAll d kvs) k = Option.some v
  | [], d, _, h => by simp [pyDictGet] at h
  | ⟨a1, a2⟩ :: t, d, hnd, h => by
    have step : setAll d (⟨a1, a2⟩ :: t) = setAll (pyDictSet d a1 a2) t := rfl
    rw [List.map_cons, List.nodup_cons] at hnd
    by_cases hka : k = a1
    · subst hka
      have hv : a2 = v := by
        simpa [pyDictGet, List.lookup_cons] using h
      subst hv
      have hnot : pyDictGet t k = Option.none := by
        rcases hmem : pyDictGet t k with _ | w
        · rfl
        · exact absurd (lookup_some_key_mem k w t hmem) hnd.1
      rw [step, setAll_lookup_none k t (pyDictSet d k a2) hnot,
        pyDictGet_pyDictSet_self d k a2]
    · have hka' : (k == a1) = false := beq_eq_false_iff_ne.mpr hka
      have ht : pyDictGet t k = Option.some v := by
        simpa [pyDictGet, List.lookup_cons, hka'] using h
      rw [step]
      exact setAll_lookup_some k v t (pyDictSet d a1 a2) hnd.2 ht

/-! ### Lemmas about strict comprehension evaluation -/

theorem collectE_map_ok {β : Type} (g : β → Except String Bool) (f : β → Bool) :
    ∀ (l : List β), (∀ x ∈ l, g x = Except.ok (f x)) →
      collectE (l.map g) = Except.ok (l.map f)
  | [], _ => rfl
  | x :: t, h => by
    have hrec := collectE_map_ok g f t (fun y hy => h y (List.mem_cons_of_mem x hy))
    simp [collectE, h x (List.mem_cons_self x t), hrec]

theorem collectPairs_keys :
    ∀ (l : List (String × Except String Bool)) (m : List (String × Bool)),
      collectPairs l = Except.ok m → m.map Prod.fst = l.map Prod.fst
  | [], m, h => by
    injection h with h1
    subst h1
    rfl
  | (k, Except.error e) :: t, m, h => by
    simp [collectPairs] at h
  | (k, Except.ok b) :: t, m, h => by
    rw [collectPairs] at h
    rcases hrec : collectPairs t with e | bs
    · rw [hrec] at h
      simp at h
    · rw [hrec] at h
      injection h with h1
      subst h1
      simp [collectPairs_keys t bs hrec]

/-! ### The join operation puts every element of the list into the result -/

theorem pyJoin_mem_infix (sep : String) :
    ∀ (l : List String) (s : String), s ∈ l →
      ∃ pre post : List Char, (pyJoin sep l).data = pre ++ (s.data ++ post)
  | [], s, h => absurd h (List.not_mem_nil s)
  | [a], s, h => by
    have hs : s = a := by simpa using h
    subst hs
    exact ⟨[], [], by simp [pyJoin]⟩
  | a :: b :: t, s, h => by
    rcases List.mem_cons.mp h with h1 | h1
    · subst h1
      exact ⟨[], (sep ++ pyJoin sep (b :: t)).data, by
        simp [pyJoin, String.data_append]⟩
    · obtain ⟨pre, post, hp⟩ := pyJoin_mem_infix sep (b :: t) s h1
      exact ⟨a.data ++ sep.data ++ pre, post, by
        simp [pyJoin, String.data_append, hp]⟩

/-! ### Lemmas about the split scanner, for the operator-matching facts -/

theorem splitGo_head (sep : List Char) :
    ∀ (fuel : Nat) (cur s : List Char),
      ∃ t rest, splitGo sep fuel cur s = (cur ++ t) :: rest
  | 0, cur, s => ⟨[], [], by simp [splitGo]⟩
  | fuel + 1, cur, s => by
    rcases s with _ | ⟨a, s2⟩
    · by_cases h : (isPrefixL sep [] && !sep.isEmpty) = true
      · exact ⟨[], splitGo sep fuel [] (List.drop sep.length []),
          by rw [splitGo, if_pos h]; simp⟩
      · exact ⟨[], [], by rw [splitGo, if_neg h]; simp⟩
    · by_cases h : (isPrefixL sep (a :: s2) && !sep.isEmpty) = true
      · exact ⟨[], splitGo sep fuel [] (List.drop sep.length (a :: s2)),
          by rw [splitGo, if_pos h]; simp⟩
      · obtain ⟨t, rest, ih⟩ := splitGo_head sep fuel (cur ++ [a]) s2
        exact ⟨[a] ++ t, rest, by rw [splitGo, if_neg h]; simpa using ih⟩

theorem splitGo_after_ne (x : Char) (r : List Char) (hx : (x == '=') = false) :
    ∃ t rest, splitGo [x] (r.length + 1 + 1) [] ('=' :: r) = ('=' :: t) :: rest := by
  have hcond : isPrefixL [x] ('=' :: r) = false := by
    simp [isPrefixL, hx]
  obtain ⟨t, rest, ih⟩ := splitGo_head [x] (r.length + 1) ['='] r
  refine ⟨t, rest, ?_⟩
  rw [splitGo, if_neg (by simp [hcond])]
  simpa using ih

theorem blockOneChar (c : String) (x : Char) (r : List Char)
    (hc : c.data = x :: '=' :: r) (hx : (x == '=') = false) :
    _isop c (String.mk [x]) = false := by
  obtain ⟨t, rest, hsplit⟩ := splitGo_after_ne x r hx
  have hps : pySplit c (String.mk [x]) = [] :: ('=' :: t) :: rest := by
    unfold pySplit
    rw [show (String.mk [x]).data = [x] from rfl, hc]
    rw [show (x :: '=' :: r).length + 1 = r.length + 1 + 1 + 1 from by simp]
    rw [splitGo, if_pos (by simp [isPrefixL])]
    rw [show (x :: '=' :: r).drop [x].length = '=' :: r from by simp]
    rw [hsplit]
  unfold _isop
  rw [hps]
  simp [isPrefixL]

/-! ### Prefix facts -/

theorem isPrefixL_cons_elim {x : Char} {xs l : List Char}
    (h : isPrefixL (x :: xs) l = true) :
    ∃ r, l = x :: r ∧ isPrefixL xs r = true := by
  rcases l with _ | ⟨b, bs⟩
  · simp [isPrefixL] at h
  · have h' : x = b ∧ isPrefixL xs bs = true := by
      simpa [isPrefixL] using h
    exact ⟨bs, by rw [h'.1], h'.2⟩

theorem prefix_pair {x y : Char} {l : List Char}
    (h : isPrefixL [x, y] l = true) : ∃ r, l = x :: y :: r := by
  obtain ⟨r1, hr1, h1⟩ := isPrefixL_cons_elim h
  obtain ⟨r2, hr2, _⟩ := isPrefixL_cons_elim h1
  exact ⟨r2, by rw [hr1, hr2]⟩

theorem prefix_firstChar {l : List Char} {x y : Char} {xs ys : List Char}
    (h1 : isPrefixL (x :: xs) l = true) (h2 : isPrefixL (y :: ys) l = true) :
    x = y := by
  obtain ⟨r1, hr1, _⟩ := isPrefixL_cons_elim h1
  obtain ⟨r2, hr2, _⟩ := isPrefixL_cons_elim h2
  injection hr1.symm.trans hr2

theorem isop_startswith_true (c op : String) (h : _isop c op = true) :
    isPrefixL op.data c.data = true := by
  unfold _isop pyStartswith at h
  exact (Bool.and_eq_true_iff.mp h).1

theorem isop_false_of_not_startswith (c op : String)
    (h : pyStartswith c op = false) : _isop c op = false := by
  unfold _isop
  rw [h, Bool.false_and]

theorem startswith_one_false (c : String) (x y : Char) (l : List Char)
    (hc : c.data = y :: l) (hxy : (x == y) = false) :
    pyStartswith c (String.mk [x]) = false := by
  unfold pyStartswith
  rw [show (String.mk [x]).data = [x] from rfl, hc]
  simp [isPrefixL, hxy]

theorem lt_block_of_le (c : String) (h : _isop c "<=" = true) :
    _isop c "<" = false := by
  have hp : isPrefixL ['<', '='] c.data = true := isop_startswith_true c "<=" h
  obtain ⟨r, hr⟩ := prefix_pair hp
  exact blockOneChar c '<' r hr (by decide)

theorem gt_block_of_ge (c : String) (h : _isop c ">=" = true) :
    _isop c ">" = false := by
  have hp : isPrefixL ['>', '='] c.data = true := isop_startswith_true c ">=" h
  obtain ⟨r, hr⟩ := prefix_pair hp
  exact blockOneChar c '>' r hr (by decide)

/-! ### Unfolding helpers for the entry points -/

theorem check_constraints_unfolded (v : PyVal) (n : String)
    (cmap : List (String × Constraint)) (ca : Bool) (c : Constraint)
    (hlk : cmap.lookup n = Option.some c) :
    check_constraints v n cmap ca =
      (if isiterable c then
        match collectE ((iterMembers c).map (fun x => _check_constraint v x)) with
        | Except.error e => Except.error e
        | Except.ok bs =>
          Except.ok (if ca then bs.all (fun b => b) else bs.any (fun b => b))
      else _check_constraint v c) := by
  simp only [check_constraints, hlk, Option.getD_some]

theorem check_constraints_coll (v : PyVal) (n : String)
    (cmap : List (String × Constraint)) (ca : Bool) (cs : List Constraint)
    (hlk : cmap.lookup n = Option.some (Constraint.coll cs)) :
    check_constraints v n cmap ca =
      (match collectE (cs.map (fun x => _check_constraint v x)) with
      | Except.error e => Except.error e
      | Except.ok bs =>
        Except.ok (if ca then bs.all (fun b => b) else bs.any (fun b => b))) := by
  rw [check_constraints_unfolded v n cmap ca (Constraint.coll cs) hlk]
  rw [show isiterable (Constraint.coll cs) = true from rfl]
  rw [if_pos rfl]
  rfl

theorem check_constraints_single (v : PyVal) (n : String)
    (cmap : List (String × Constraint)) (ca : Bool) (c : Constraint)
    (hlk : cmap.lookup n = Option.some c) (hni : isiterable c = false) :
    check_constraints v n cmap ca = _check_constraint v c := by
  rw [check_constraints_unfolded v n cmap ca c hlk, hni]
  rw [if_neg (by simp)]

theorem set_eq_of_check_ok (r : ParameterRegister) (kwargs : List (String × PyVal))
    (m : List (String × Bool))
    (hnc : truthy ((pyDictGet kwargs "no_check").getD PyVal.none) = false)
    (hck : r.check_kwargs kwargs = Except.ok m) :
    r.set kwargs =
      (if m.all (fun p => p.2) then
        ({ r with values := setAll r.values kwargs }, Option.none)
      else
        (r, Option.some (pyJoin ", "
          ((m.filter (fun p => !p.2)).map (fun p => r._err_fmt p.1 kwargs))))) := by
  simp only [ParameterRegister.set, hnc, hck, Bool.false_eq_true, if_false]

theorem all_map_id {β : Type} (f : β → Bool) :
    ∀ l : List β, (l.map f).all (fun b => b) = l.all f
  | [] => rfl
  | x :: t => by simp [List.all_cons, all_map_id f t]

theorem any_map_id {β : Type} (f : β → Bool) :
    ∀ l : List β, (l.map f).any (fun b => b) = l.any f
  | [] => rfl
  | x :: t => by simp [List.any_cons, any_map_id f t]

/-! ### Lemmas about the backfill filter -/

theorem isUnset_true_of_unset (values : List (String × PyVal)) (k : String)
    (h : pyDictGet values k = Option.none ∨
      pyDictGet values k = Option.some PyVal.none) :
    isUnset values k = true := by
  rcases h with h | h <;> (unfold isUnset; rw [h])

theorem isUnset_false_of_set (values : List (String × PyVal)) (k : String)
    (v : PyVal) (hv : pyDictGet values k = Option.some v) (hne : v ≠ PyVal.none) :
    isUnset values k = false := by
  unfold isUnset
  rw [hv]
  cases v with
  | none => exact absurd rfl hne
  | bool b => rfl
  | int n => rfl
  | float q => rfl
  | str s => rfl

theorem notSetFilter_lookup_some (values : List (String × PyVal)) (k : String)
    (d : PyVal) (hunset : isUnset values k = true) :
    ∀ ds : List (String × PyVal), pyDictGet ds k = Option.some d →
      pyDictGet (notSetFilter values ds) k = Option.some d
  | [], h => by simp [pyDictGet] at h
  | ⟨a1, a2⟩ :: t, h => by
    unfold notSetFilter
    rw [List.filter_cons]
    by_cases hka : k = a1
    · subst hka
      have hd : a2 = d := by
        simpa [pyDictGet, lookup_cons_self] using h
      subst hd
      simp only [hunset, if_true]
      exact lookup_cons_self k a2 _
    · have ht : pyDictGet t k = Option.some d := by
        simpa [pyDictGet, lookup_cons_ne k a1 a2 t hka] using h
      have hrec := notSetFilter_lookup_some values k d hunset t ht
      unfold notSetFilter at hrec
      by_cases hp : isUnset values a1 = true
      · simpa [pyDictGet, hp, lookup_cons_ne k a1 a2 _ hka] using hrec
      · simpa [Bool.eq_false_iff.mpr hp] using hrec

theorem notSetFilter_lookup_none (values : List (String × PyVal)) (k : String)
    (hset : isUnset values k = false) :
    ∀ ds : List (String × PyVal),
      pyDictGet (notSetFilter values ds) k = Option.none
  | [] => rfl
  | ⟨a1, a2⟩ :: t => by
    unfold notSetFilter
    rw [List.filter_cons]
    have hrec := notSetFilter_lookup_none values k hset t
    unfold notSetFilter at hrec
    by_cases hka : k = a1
    · subst hka
      simpa [hset] using hrec
    · by_cases hp : isUnset values a1 = true
      · simpa [pyDictGet, hp, lookup_cons_ne k a1 a2 _ hka] using hrec
      · simpa [Bool.eq_false_iff.mpr hp] using hrec

theorem notSetFilter_keys_nodup (values : List (String × PyVal))
    (ds : List (String × PyVal)) (hnd : (ds.map Prod.fst).Nodup) :
    ((notSetFilter values ds).map Prod.fst).Nodup :=
  List.Nodup.sublist ((List.filter_sublist ds).map Prod.fst) hnd

/-! ## Claim theorems -/

/-- C1: for every register state and kwargs mapping passed to `set` without a
truthy `no_check`, if validation completes and reports at least one supplied
value failing its constraint, then `set` raises (second component is some
error) and the register — its value mapping included — is unchanged:
validation of all parameters happens before any assignment. -/
theorem C1_set_atomic_on_failure (r : ParameterRegister)
    (kwargs : List (String × PyVal)) (m : List (String × Bool))
    (hnc : truthy ((pyDictGet kwargs "no_check").getD PyVal.none) = false)
    (hck : r.check_kwargs kwargs = Except.ok m)
    (hbad : ∃ p ∈ m, p.2 = false) :
    ((r.set kwargs).2).isSome = true ∧ (r.set kwargs).1 = r := by
  have hall : m.all (fun p => p.2) = false := by
    rcases hbad with ⟨p, hp, hpf⟩
    apply Bool.eq_false_iff.mpr
    intro htrue
    have h2 := List.all_eq_true.mp htrue p hp
    rw [hpf] at h2
    exact Bool.false_ne_true h2
  rw [set_eq_of_check_ok r kwargs m hnc hck, if_neg (by simp [hall])]
  exact ⟨rfl, rfl⟩

/-- C1 witness: a register with one valid and one invalid supplied value:
`set` raises and the stored value of `a` (and the whole register) is
unchanged. -/
theorem C1_witness :
    ((ParameterRegister.set
        ⟨[("a", PyVal.int 1)],
         Option.some [("a", Constraint.ty PyType.intT), ("b", Constraint.ty PyType.strT)],
         Option.none⟩
        [("a", PyVal.int 2), ("b", PyVal.int 3)]).2).isSome = true ∧
    (ParameterRegister.set
        ⟨[("a", PyVal.int 1)],
         Option.some [("a", Constraint.ty PyType.intT), ("b", Constraint.ty PyType.strT)],
         Option.none⟩
        [("a", PyVal.int 2), ("b", PyVal.int 3)]).1 =
      ⟨[("a", PyVal.int 1)],
       Option.some [("a", Constraint.ty PyType.intT), ("b", Constraint.ty PyType.strT)],
       Option.none⟩ :=
  C1_set_atomic_on_failure _ _ [("a", true), ("b", false)] rfl rfl
    ⟨("b", false), by simp, rfl⟩

/-- C2 counterexample: through the entry point with a constraint map binding a
name to the bare comparison string "<=1", evaluating the value 0 raises an
uncaught ValueError instead of returning true: `isiterable` treats the string
as iterable, so it is iterated character by character, and for the
one-character piece "<" the helper `_getval` calls float on an empty string. -/
theorem C2_counterexample :
    check_constraints (PyVal.int 0) "n" [("n", Constraint.str "<=1")] true =
      Except.error "ValueError: could not convert string to float" := rfl

/-- C2 amended: the claimed results true, true, true, false, false on
0, 1, 1.0, 1.5, "x" hold for the single-spec evaluator `_check_constraint`
(which is what a comparison string reaches as a member of a collection spec),
the non-coercible value "x" yielding false and no exception; through the
entry point the comparison string produces these results only when wrapped in
a collection. -/
theorem C2_amended_single_spec_results :
    _check_constraint (PyVal.int 0) (Constraint.str "<=1") = Except.ok true ∧
    _check_constraint (PyVal.int 1) (Constraint.str "<=1") = Except.ok true ∧
    _check_constraint (PyVal.float 1) (Constraint.str "<=1") = Except.ok true ∧
    _check_constraint (PyVal.float (Rat.divInt 3 2)) (Constraint.str "<=1") = Except.ok false ∧
    _check_constraint (PyVal.str "x") (Constraint.str "<=1") = Except.ok false ∧
    check_constraints (PyVal.int 0) "n"
        [("n", Constraint.coll [Constraint.str "<=1"])] true = Except.ok true ∧
    check_constraints (PyVal.float (Rat.divInt 3 2)) "n"
        [("n", Constraint.coll [Constraint.str "<=1"])] true = Except.ok false :=
  ⟨rfl, rfl, rfl, rfl, rfl, rfl, rfl⟩

/-- C3 counterexample: a bare string spec IS treated as a collection by the
code: `isiterable` holds of the string ">=1", and through the entry point the
value 0 consequently raises a ValueError (from the one-character piece ">")
instead of being evaluated against the whole comparison string. -/
theorem C3_counterexample :
    isiterable (Constraint.str ">=1") = true ∧
    check_constraints (PyVal.int 0) "n" [("n", Constraint.str ">=1")] true =
      Except.error "ValueError: could not convert string to float" :=
  ⟨rfl, rfl⟩

/-- C3 amended: for collection specs (and every string, which the code also
treats as iterable), `check_constraints` evaluates each member on the value
and combines with AND when `check_all` is true, OR when false; the empty
collection yields true under AND and false under OR; and the pair
(">=1", "<5") under AND accepts 1 and 4 and rejects 5 and 0. -/
theorem C3_amended_collection_semantics :
    (∀ (v : PyVal) (n : String) (cs : List Constraint) (f : Constraint → Bool),
      (∀ c ∈ cs, _check_constraint v c = Except.ok (f c)) →
      check_constraints v n [(n, Constraint.coll cs)] true = Except.ok (cs.all f) ∧
      check_constraints v n [(n, Constraint.coll cs)] false = Except.ok (cs.any f)) ∧
    (∀ (v : PyVal) (n : String),
      check_constraints v n [(n, Constraint.coll [])] true = Except.ok true ∧
      check_constraints v n [(n, Constraint.coll [])] false = Except.ok false) ∧
    (∀ s : String, isiterable (Constraint.str s) = true) ∧
    check_constraints (PyVal.int 1) "n"
      [("n", Constraint.coll [Constraint.str ">=1", Constraint.str "<5"])] true =
        Except.ok true ∧
    check_constraints (PyVal.int 4) "n"
      [("n", Constraint.coll [Constraint.str ">=1", Constraint.str "<5"])] true =
        Except.ok true ∧
    check_constraints (PyVal.int 5) "n"
      [("n", Constraint.coll [Constraint.str ">=1", Constraint.str "<5"])] true =
        Except.ok false ∧
    check_constraints (PyVal.int 0) "n"
      [("n", Constraint.coll [Constraint.str ">=1", Constraint.str "<5"])] true =
        Except.ok false := by
  refine ⟨?_, ?_, fun s => rfl, rfl, rfl, rfl, rfl⟩
  · intro v n cs f hf
    have hlk : List.lookup n [(n, Constraint.coll cs)] =
        Option.some (Constraint.coll cs) := lookup_cons_self n _ []
    constructor
    · rw [check_constraints_coll v n _ true cs hlk, collectE_map_ok _ f cs hf]
      simp [all_map_id]
    · rw [check_constraints_coll v n _ false cs hlk, collectE_map_ok _ f cs hf]
      simp [any_map_id]
  · intro v n
    have hlk : List.lookup n [(n, Constraint.coll ([] : List Constraint))] =
        Option.some (Constraint.coll []) := lookup_cons_self n _ []
    constructor
    · rw [check_constraints_coll v n _ true [] hlk]
      rfl
    · rw [check_constraints_coll v n _ false [] hlk]
      rfl

/-- C3 witness: the general collection rule applied to the concrete pair
(">=1", "<5") under OR semantics on the value 1. -/
theorem C3_witness :
    check_constraints (PyVal.int 1) "n"
        [("n", Constraint.coll [Constraint.str ">=1", Constraint.str "<5"])] false =
      Except.ok true :=
  (C3_amended_collection_semantics.1 (PyVal.int 1) "n"
    [Constraint.str ">=1", Constraint.str "<5"] (fun _ => true)
    (by intro c hc; fin_cases hc <;> rfl)).2

/-- C4 counterexample: the spec characterises the firing rule as "the remainder
after stripping the symbol does not begin with an equals sign" (`specIsop`),
but the code splits on the symbol and looks at the piece between its first and
second occurrence: on the string "====" the code fires the operator "==" while
the spec's rule says no operator may fire. -/
theorem C4_counterexample :
    _isop "====" "==" = true ∧ specIsop "====" "==" = false :=
  ⟨rfl, rfl⟩

/-- C4 amended: at most one of the six operator symbols fires on any constraint
string; a firing operator is always a prefix of the string; the one-character
operators never fire on strings beginning with ">=", "<=", "==", or "!="; and
3 against "==3" and against ">=3" both evaluate to true.  (The precise firing
condition is the split-based one of `_isop`, which differs from the spec's
stripped-remainder rule only on strings where the symbol immediately recurs,
such as "====".) -/
theorem C4_amended_operator_matching :
    (∀ (c op1 op2 : String), op1 ∈ opsKeys → op2 ∈ opsKeys →
      _isop c op1 = true → _isop c op2 = true → op1 = op2) ∧
    (∀ (c op : String), op ∈ opsKeys → _isop c op = true →
      pyStartswith c op = true) ∧
    (∀ c : String, pyStartswith c ">=" = true → _isop c ">" = false) ∧
    (∀ c : String, pyStartswith c "<=" = true → _isop c "<" = false) ∧
    (∀ c : String, pyStartswith c "==" = true →
      _isop c ">" = false ∧ _isop c "<" = false) ∧
    (∀ c : String, pyStartswith c "!=" = true →
      _isop c ">" = false ∧ _isop c "<" = false) ∧
    _check_constraint (PyVal.int 3) (Constraint.str "==3") = Except.ok true ∧
    _check_constraint (PyVal.int 3) (Constraint.str ">=3") = Except.ok true := by
  refine ⟨?_, ?_, ?_, ?_, ?_, ?_, rfl, rfl⟩
  · intro c op1 op2 h1 h2 hi1 hi2
    simp only [opsKeys] at h1 h2
    fin_cases h1 <;> fin_cases h2 <;>
      first
        | rfl
        | (rw [lt_block_of_le c hi1] at hi2; exact (Bool.false_ne_true hi2).elim)
        | (rw [lt_block_of_le c hi2] at hi1; exact (Bool.false_ne_true hi1).elim)
        | (rw [gt_block_of_ge c hi1] at hi2; exact (Bool.false_ne_true hi2).elim)
        | (rw [gt_block_of_ge c hi2] at hi1; exact (Bool.false_ne_true hi1).elim)
        | exact absurd (prefix_firstChar (isop_startswith_true c _ hi1) (isop_startswith_true c _ hi2))
            (by decide)
  · intro c op _ h
    exact isop_startswith_true c op h
  · intro c h
    obtain ⟨r, hr⟩ := prefix_pair (show isPrefixL ['>', '='] c.data = true from h)
    exact blockOneChar c '>' r hr (by decide)
  · intro c h
    obtain ⟨r, hr⟩ := prefix_pair (show isPrefixL ['<', '='] c.data = true from h)
    exact blockOneChar c '<' r hr (by decide)
  · intro c h
    obtain ⟨r, hr⟩ := prefix_pair (show isPrefixL ['=', '='] c.data = true from h)
    constructor
    · exact isop_false_of_not_startswith c ">" (startswith_one_false c '>' '=' _ hr (by decide))
    · exact isop_false_of_not_startswith c "<" (startswith_one_false c '<' '=' _ hr (by decide))
  · intro c h
    obtain ⟨r, hr⟩ := prefix_pair (show isPrefixL ['!', '='] c.data = true from h)
    constructor
    · exact isop_false_of_not_startswith c ">" (startswith_one_false c '>' '!' _ hr (by decide))
    · exact isop_false_of_not_startswith c "<" (startswith_one_false c '<' '!' _ hr (by decide))

/-- C4 witness: the non-firing guarantee applied at ">=3", and the prefix
property of the firing operator applied at ">=3" with ">=". -/
theorem C4_witness :
    _isop ">=3" ">" = false ∧ pyStartswith ">=3" ">=" = true :=
  ⟨C4_amended_operator_matching.2.2.1 ">=3" rfl,
   C4_amended_operator_matching.2.1 ">=3" ">=" (by simp [opsKeys]) rfl⟩

/-- C5: a type-tag constraint evaluates, through the entry point, to exactly
`isinstance` of the value at the tag, for either value of `check_all`, and
never raises. -/
theorem C5_type_tag_is_isinstance (v : PyVal) (t : PyType) (n : String)
    (cmap : List (String × Constraint)) (ca : Bool)
    (hlk : cmap.lookup n = Option.some (Constraint.ty t)) :
    check_constraints v n cmap ca = Except.ok (isinstance v t) := by
  rw [check_constraints_unfolded v n cmap ca (Constraint.ty t) hlk]
  rfl

/-- C5 witness: a string value against the `str` type tag. -/
theorem C5_witness :
    check_constraints (PyVal.str "a") "s" [("s", Constraint.ty PyType.strT)] true =
      Except.ok true :=
  C5_type_tag_is_isinstance (PyVal.str "a") PyType.strT "s" _ true
    (lookup_cons_self "s" (Constraint.ty PyType.strT) [])

/-- C6: when `set` raises on validation failure, the error is the comma-joined
message naming, for every failing parameter (in order, not just the first),
the parameter, its declared constraint and the supplied value; moreover the
returned validation map covers every supplied parameter, so validation
completed before the raise. -/
theorem C6_set_error_lists_all_failures (r : ParameterRegister)
    (kwargs : List (String × PyVal)) (m : List (String × Bool))
    (cs : List (String × Constraint))
    (hnc : truthy ((pyDictGet kwargs "no_check").getD PyVal.none) = false)
    (hcs : r.constraints = Option.some cs)
    (hck : r.check_kwargs kwargs = Except.ok m)
    (hbad : ∃ p ∈ m, p.2 = false) :
    m.map Prod.fst = kwargs.map Prod.fst ∧
    (r.set kwargs).2 = Option.some (pyJoin ", "
      ((m.filter (fun p => !p.2)).map (fun p =>
        p.1 ++ " expects " ++
        pyStrConstraint ((pyDictGet cs p.1).getD Constraint.none) ++
        " but got " ++ pyStr ((pyDictGet kwargs p.1).getD PyVal.none)))) := by
  have hall : m.all (fun p => p.2) = false := by
    rcases hbad with ⟨p, hp, hpf⟩
    apply Bool.eq_false_iff.mpr
    intro htrue
    have h2 := List.all_eq_true.mp htrue p hp
    rw [hpf] at h2
    exact Bool.false_ne_true h2
  constructor
  · have hkeys := collectPairs_keys _ m hck
    rw [hkeys]
    simp only [List.map_map]
    rfl
  · rw [set_eq_of_check_ok r kwargs m hnc hck, if_neg (by simp [hall])]
    simp [ParameterRegister._err_fmt, hcs]

/-- C6 witness: two failing parameters; the raised message lists both of them
with their constraints and values. -/
theorem C6_witness :
    (ParameterRegister.set
        ⟨[], Option.some [("a", Constraint.ty PyType.strT), ("b", Constraint.ty PyType.strT)],
         Option.none⟩
        [("a", PyVal.int 1), ("b", PyVal.int 2)]).2 =
      Option.some "a expects <class \x27str\x27> but got 1, b expects <class \x27str\x27> but got 2" :=
  (C6_set_error_lists_all_failures
    ⟨[], Option.some [("a", Constraint.ty PyType.strT), ("b", Constraint.ty PyType.strT)],
     Option.none⟩
    [("a", PyVal.int 1), ("b", PyVal.int 2)] [("a", false), ("b", false)]
    [("a", Constraint.ty PyType.strT), ("b", Constraint.ty PyType.strT)]
    rfl rfl rfl ⟨("a", false), by simp, rfl⟩).2

/-- C7: the claim says that with no default source, `set_uninitialized_params`
is a non-fatal no-op.  In the code the final `self.update(**defaults_notset)`
statement sits outside the if/elif/else, so after printing its message the
method raises UnboundLocalError on the never-assigned `defaults_notset`:
evaluating the model at the failing input shows the raised error (the register
is unchanged at the moment the exception propagates). -/
theorem C7_no_defaults_raises :
    ParameterRegister.set_uninitialized_params
        (ParameterRegister.init Option.none Option.none) Option.none =
      (ParameterRegister.init Option.none Option.none,
       Option.some "UnboundLocalError: local variable defaults_notset referenced before assignment") :=
  rfl

/-- C8: `set_uninitialized_params` assigns, for every key of the effective
default mapping (the explicit argument, else the register's own defaults)
whose current value is absent or None, that key's default, and leaves every
key with a real current value unchanged; no exception is raised. -/
theorem C8_backfill_unset_only (r : ParameterRegister)
    (ds : List (String × PyVal)) (arg : Option (List (String × PyVal)))
    (hnd : (ds.map Prod.fst).Nodup)
    (heff : arg = Option.some ds ∨ (arg = Option.none ∧ r.defaults = Option.some ds)) :
    (r.set_uninitialized_params arg).2 = Option.none ∧
    (∀ k d, pyDictGet ds k = Option.some d →
      (pyDictGet r.values k = Option.none ∨
        pyDictGet r.values k = Option.some PyVal.none) →
      pyDictGet (r.set_uninitialized_params arg).1.values k = Option.some d) ∧
    (∀ k v, pyDictGet r.values k = Option.some v → v ≠ PyVal.none →
      pyDictGet (r.set_uninitialized_params arg).1.values k = Option.some v) := by
  have hres : r.set_uninitialized_params arg =
      ({ r with values := setAll r.values (notSetFilter r.values ds) }, Option.none) := by
    rcases heff with h | ⟨h1, h2⟩
    · subst h
      rfl
    · subst h1
      simp only [ParameterRegister.set_uninitialized_params, h2]
  rw [hres]
  refine ⟨rfl, ?_, ?_⟩
  · intro k d hds hunset
    exact setAll_lookup_some k d (notSetFilter r.values ds) r.values
      (notSetFilter_keys_nodup r.values ds hnd)
      (notSetFilter_lookup_some r.values k d
        (isUnset_true_of_unset r.values k hunset) ds hds)
  · intro k v hval hne
    rw [setAll_lookup_none k (notSetFilter r.values ds) r.values
      (notSetFilter_lookup_none r.values k
        (isUnset_false_of_set r.values k v hval hne) ds)]
    exact hval

/-- C8 witness: defaults x↦10, y↦20 with x already set to 5 and y unset:
afterwards x is still 5 and y is 20. -/
theorem C8_witness :
    (ParameterRegister.set_uninitialized_params
        ⟨[("x", PyVal.int 5)], Option.none,
         Option.some [("x", PyVal.int 10), ("y", PyVal.int 20)]⟩ Option.none).2 =
      Option.none ∧
    pyDictGet (ParameterRegister.set_uninitialized_params
        ⟨[("x", PyVal.int 5)], Option.none,
         Option.some [("x", PyVal.int 10), ("y", PyVal.int 20)]⟩ Option.none).1.values
      "x" = Option.some (PyVal.int 5) ∧
    pyDictGet (ParameterRegister.set_uninitialized_params
        ⟨[("x", PyVal.int 5)], Option.none,
         Option.some [("x", PyVal.int 10), ("y", PyVal.int 20)]⟩ Option.none).1.values
      "y" = Option.some (PyVal.int 20) := by
  have h := C8_backfill_unset_only
    ⟨[("x", PyVal.int 5)], Option.none,
     Option.some [("x", PyVal.int 10), ("y", PyVal.int 20)]⟩
    [("x", PyVal.int 10), ("y", PyVal.int 20)] Option.none
    (by decide) (Or.inr ⟨rfl, rfl⟩)
  exact ⟨h.1, h.2.2 "x" (PyVal.int 5) rfl (by simp),
    h.2.1 "y" (PyVal.int 20) rfl (Or.inl rfl)⟩

/-- C9: a truthy `no_check` skips validation but is not stripped from the
kwargs: after the call the key `no_check` itself is stored in the value
mapping with the passed value, and for `no_check=True` the pair
`no_check:True` appears inside the `hashable_str` fingerprint. -/
theorem C9_no_check_is_assigned (r : ParameterRegister)
    (kwargs : List (String × PyVal)) (v : PyVal)
    (hnd : (kwargs.map Prod.fst).Nodup)
    (hv : pyDictGet kwargs "no_check" = Option.some v)
    (ht : truthy v = true) :
    (r.set kwargs).2 = Option.none ∧
    pyDictGet (r.set kwargs).1.values "no_check" = Option.some v ∧
    (v = PyVal.bool true → ∃ pre post : List Char,
      ((r.set kwargs).1.hashable_str).data = pre ++ ("no_check:True".data ++ post)) := by
  have hres : r.set kwargs =
      ({ r with values := setAll r.values kwargs }, Option.none) := by
    simp only [ParameterRegister.set, hv, Option.getD_some, ht, if_true]
  rw [hres]
  refine ⟨rfl, ?_, ?_⟩
  · exact setAll_lookup_some "no_check" v kwargs r.values hnd hv
  · intro hvb
    subst hvb
    have hmem : ("no_check", PyVal.bool true) ∈ setAll r.values kwargs :=
      lookup_some_mem "no_check" (PyVal.bool true) _
        (setAll_lookup_some "no_check" _ kwargs r.values hnd hv)
    have hmem2 : ("no_check" ++ ":" ++ pyStr (PyVal.bool true)) ∈
        (setAll r.values kwargs).map (fun p => p.1 ++ ":" ++ pyStr p.2) :=
      List.mem_map.mpr ⟨("no_check", PyVal.bool true), hmem, rfl⟩
    obtain ⟨pre, post, hp⟩ := pyJoin_mem_infix "," _ _ hmem2
    exact ⟨pre, post, hp⟩

/-- C9 witness: setting `no_check=True` together with another key: no error,
`no_check` is stored, and `no_check:True` appears in the fingerprint. -/
theorem C9_witness :
    (ParameterRegister.set ⟨[], Option.some [], Option.none⟩
        [("no_check", PyVal.bool true), ("a", PyVal.int 1)]).2 = Option.none ∧
    pyDictGet (ParameterRegister.set ⟨[], Option.some [], Option.none⟩
        [("no_check", PyVal.bool true), ("a", PyVal.int 1)]).1.values "no_check" =
      Option.some (PyVal.bool true) ∧
    (∃ pre post : List Char,
      ((ParameterRegister.set ⟨[], Option.some [], Option.none⟩
        [("no_check", PyVal.bool true), ("a", PyVal.int 1)]).1.hashable_str).data =
        pre ++ ("no_check:True".data ++ post)) := by
  have h := C9_no_check_is_assigned ⟨[], Option.some [], Option.none⟩
    [("no_check", PyVal.bool true), ("a", PyVal.int 1)] (PyVal.bool true)
    (by decide) rfl rfl
  exact ⟨h.1, h.2.1, h.2.2 rfl⟩

/-- C10: with the default construction (constraints and defaults both None),
every call to `register` raises a TypeError from item assignment on None; in
general `register` succeeds exactly when both the constraint map and the
default map were provided at construction. -/
theorem C10_register_needs_both_maps :
    (∀ (n : String) (c : Constraint) (d : PyVal),
      ((ParameterRegister.init Option.none Option.none).register n c d).2 =
        Option.some "TypeError: NoneType object does not support item assignment") ∧
    (∀ (r : ParameterRegister) (n : String) (c : Constraint) (d : PyVal),
      (r.register n c d).2 = Option.none ↔
        r.constraints.isSome = true ∧ r.defaults.isSome = true) := by
  constructor
  · intro n c d
    rfl
  · intro r n c d
    rcases r with ⟨vals, oc, od⟩
    rcases oc with _ | cs <;> rcases od with _ | ds <;>
      simp [ParameterRegister.register]

end Youtill
